import Mathlib

/-!
# go-white-labeling: certificate lifecycle (SNI resolver, issuance, renewal)

A shallow embedding of `internal/server/server.go`, `internal/handler/handler.go`,
`internal/acme/acme.go` and `internal/db/db.go`.

* The certs directory is a map from path to file content; names and paths are
  Unicode strings.
* The `certificates` table is a list of rows in insertion order.
* Calls into libraries outside the repository (the ACME client, `crypto/tls`,
  `encoding/pem`, `crypto/x509`, the operating system, the database driver) are
  represented by their outcomes: a record of outcomes is an argument of each
  operation, so every theorem quantifies over all behaviours of the environment.
-/

namespace WhiteLabel

/-! ## Paths: `fmt.Sprintf` and `path/filepath.Join` (Unix) -/

/-- Split a path at every separator `/`; the result is never empty. -/
def splitSep : List Char → List (List Char)
  | [] => [[]]
  | c :: cs =>
    if c = '/' then [] :: splitSep cs
    else
      match splitSep cs with
      | [] => [[c]]
      | x :: xs => (c :: x) :: xs

/-- One element of the path processed by `filepath.Clean`; `stack` holds the
elements kept so far, last one first.  Empty elements and `.` are dropped, `..`
removes the last real element (or is kept in front of a relative path), any
other element is appended. -/
def cleanStep (rooted : Bool) (stack : List (List Char)) (el : List Char) :
    List (List Char) :=
  if el = [] ∨ el = ['.'] then stack
  else if el = ['.', '.'] then
    match stack with
    | [] => if rooted then [] else [el]
    | top :: rest => if top = ['.', '.'] then el :: stack else rest
  else el :: stack

/-- Concatenate path elements with a separator `/` between consecutive ones. -/
def joinSep : List (List Char) → List Char
  | [] => []
  | [x] => x
  | x :: y :: rest => x ++ '/' :: joinSep (y :: rest)

/-- Go `filepath.Clean` on a Unix path, on the characters of the path. -/
def cleanChars (path : List Char) : List Char :=
  if path = [] then ['.']
  else
    let rooted : Bool := path.head? = some '/'
    let stack := (splitSep path).foldl (cleanStep rooted) []
    let body := joinSep stack.reverse
    let out := if rooted then '/' :: body else body
    if out = [] then ['.'] else out

/-- Go `filepath.Join(dir, name)` for a non-empty `dir`: the two elements are
joined by a separator and the result is cleaned. -/
def Join (dir name : String) : String :=
  String.mk (cleanChars (dir.data ++ '/' :: name.data))

/-- Certificate file of a domain:
`filepath.Join("certs", fmt.Sprintf("%s.crt", domain))`. -/
def certPath (domain : String) : String := Join "certs" (domain ++ ".crt")

/-- Key file of a domain:
`filepath.Join("certs", fmt.Sprintf("%s.key", domain))`. -/
def keyPath (domain : String) : String := Join "certs" (domain ++ ".key")


/-! ## The certs directory and `os.WriteFile` -/

/-- File content (`[]byte`). -/
abbrev Bytes := List Nat

/-- The files the process can reach, keyed by the path string handed to the
operating system: `none` at a path that cannot be read (no such file, or a
read error).  Two different strings are two entries, also when the operating
system would resolve them to one file (a path that leaves the certs directory
through `..` and comes back, a name differing only in case on a file system
that ignores case, a link); a property that relies on two names being two
files is therefore stated for names without a path separator, which are file
names inside the certs directory. -/
abbrev Files := String → Option Bytes

/-- What the operating system does with one `os.WriteFile(name, data, perm)`:
`ok` stores `data`; `openFailed` is an error from opening the file, which is
left as it was; `writeFailed err n` is an error from `Write` or `Close` after
the file was created or truncated and the first `n` bytes of `data` reached
it. -/
inductive WriteResult where
  | ok
  | openFailed (err : String)
  | writeFailed (err : String) (n : Nat)
  deriving DecidableEq, Repr

/-- Go `os.WriteFile`: the files afterwards and the error returned. -/
def WriteFile (fs : Files) (name : String) (data : Bytes) :
    WriteResult → Files × Option String
  | .ok => (fun p => if p = name then some data else fs p, none)
  | .openFailed err => (fs, some err)
  | .writeFailed err n =>
    (fun p => if p = name then some (data.take n) else fs p, some err)

/-! ## Library functions outside the repository -/

/-- The parsing functions of the Go standard library used by the repository,
over an arbitrary type `C` of loaded key pairs (`tls.Certificate`).
`X509KeyPair` is `tls.X509KeyPair`; `pemDecode` is the `Bytes` field of the
block found by `pem.Decode` (`none` when it finds no block); `parseNotAfter`
is the `NotAfter` field of the result of `x509.ParseCertificate`, in
nanoseconds. -/
structure Lib (C : Type) where
  X509KeyPair : Bytes → Bytes → Except String C
  pemDecode : Bytes → Option Bytes
  parseNotAfter : Bytes → Except String Int

/-- Go `tls.LoadX509KeyPair(certFile, keyFile)`: read both files, then parse
the pair. -/
def LoadX509KeyPair {C : Type} (lib : Lib C) (fs : Files)
    (certFile keyFile : String) : Except String C :=
  match fs certFile with
  | none => .error ("open " ++ certFile)
  | some certPEMBlock =>
    match fs keyFile with
    | none => .error ("open " ++ keyFile)
    | some keyPEMBlock => lib.X509KeyPair certPEMBlock keyPEMBlock

/-! ## `server.NewServer`: the SNI resolver -/

/-- The certificate a `GetCertificate` result points to: the address of the
default certificate generated in `NewServer`, or of the key pair just
loaded. -/
inductive CertRef (C : Type) where
  | defaultTLSCert
  | cert (c : C)
  deriving DecidableEq, Repr

/-- The `GetCertificate` callback of the `tls.Config` built in `NewServer`;
the result is the Go pair `(*tls.Certificate, error)`, `none` standing for
`nil`. -/
def GetCertificate {C : Type} (lib : Lib C) (fs : Files) (serverName : String) :
    Option (CertRef C) × Option String :=
  let domain := serverName
  if domain = "" then (some .defaultTLSCert, none)
  else
    match LoadX509KeyPair lib fs (certPath domain) (keyPath domain) with
    | .error _ => (some .defaultTLSCert, none)
    | .ok cert => (some (.cert cert), none)

/-! ## The `certificates` table (`db.InitDB`) -/

/-- One row of the table created by `InitDB`; no column carries a uniqueness
constraint except the serial primary key `id`. -/
structure Row where
  id : Nat
  email : String
  domain : String
  cert_path : String
  key_path : String
  created_at : Int
  deriving DecidableEq, Repr

/-- The persistent state: the files, the rows of `certificates` in insertion
order, and the next value of the `id` sequence. -/
structure State where
  files : Files
  table : List Row
  nextId : Nat

/-- State before anything was issued: no file, no row. -/
def emptyState : State := ⟨fun _ => none, [], 1⟩

/-! ## Outcomes of the external calls of one issuance attempt -/

/-- The fields of lego `certificate.Resource` the repository uses. -/
structure Resource where
  Certificate : Bytes
  PrivateKey : Bytes
  deriving DecidableEq, Repr

/-- What the environment answers to the external calls of one run of
`GenerateCertHandler` or `renewCertificate`, in program order; `some err` is a
returned error.  A database statement that returns an error changes no row. -/
structure Outcomes where
  generateKey : Option String
  newClient : Option String
  setHTTP01Provider : Option String
  register : Option String
  obtain : Except String Resource
  mkdirAll : Option String
  writeCert : WriteResult
  writeKey : WriteResult
  exec : Option String
  now : Int

/-! ## `handler.GenerateCertHandler` -/

/-- Go `unicode.IsSpace`. -/
def isSpace (c : Char) : Bool :=
  c.toNat = 0x09 || c.toNat = 0x0A || c.toNat = 0x0B || c.toNat = 0x0C ||
  c.toNat = 0x0D || c.toNat = 0x20 || c.toNat = 0x85 || c.toNat = 0xA0 ||
  c.toNat = 0x1680 || (0x2000 ≤ c.toNat && c.toNat ≤ 0x200A) ||
  c.toNat = 0x2028 || c.toNat = 0x2029 || c.toNat = 0x202F ||
  c.toNat = 0x205F || c.toNat = 0x3000

/-- Go `strings.TrimSpace`. -/
def TrimSpace (s : String) : String :=
  String.mk ((s.data.dropWhile isSpace).reverse.dropWhile isSpace).reverse

/-- The JSON body of a request (`acme.CertRequest`). -/
structure CertRequest where
  Email : String
  Domain : String
  deriving DecidableEq, Repr

/-- An HTTP request as the handler sees it: its method and the result of
decoding its body with `encoding/json`. -/
structure Request where
  Method : String
  Body : Except String CertRequest

/-- What the handler writes to the `http.ResponseWriter`: `http.Error` with a
message and a status code, or the JSON object of the success response. -/
inductive Response where
  | error (msg : String) (code : Nat)
  | json (fields : List (String × String))
  deriving DecidableEq, Repr

/-- Effect of the statement
`INSERT INTO certificates (email, domain, cert_path, key_path, created_at)`. -/
def insertRow (st : State) (fs : Files) (email domain cert_path key_path : String)
    (created_at : Int) : State :=
  { files := fs
    table := st.table ++ [⟨st.nextId, email, domain, cert_path, key_path, created_at⟩]
    nextId := st.nextId + 1 }

/-- Go `GenerateCertHandler`: the state afterwards and the response. -/
def GenerateCertHandler (st : State) (r : Request) (o : Outcomes) : State × Response :=
  if r.Method ≠ "POST" then (st, .error "Método no permitido" 405)
  else
    match r.Body with
    | .error err => (st, .error ("Error al parsear JSON: " ++ err) 400)
    | .ok req =>
      let email := TrimSpace req.Email
      let domain := TrimSpace req.Domain
      if email = "" ∨ domain = "" then (st, .error "Email y dominio son requeridos" 400)
      else
        match o.generateKey with
        | some err => (st, .error ("Error generando la clave: " ++ err) 500)
        | none =>
        match o.newClient with
        | some err => (st, .error ("Error creando el cliente lego: " ++ err) 500)
        | none =>
        match o.setHTTP01Provider with
        | some err => (st, .error ("Error asignando el proveedor HTTP-01: " ++ err) 500)
        | none =>
        match o.register with
        | some err => (st, .error ("Error en el registro ACME: " ++ err) 500)
        | none =>
        match o.obtain with
        | .error err => (st, .error ("Error obteniendo el certificado: " ++ err) 500)
        | .ok certs =>
        match o.mkdirAll with
        | some err =>
          (st, .error ("Error al crear directorio de certificados: " ++ err) 500)
        | none =>
        let w1 := WriteFile st.files (certPath domain) certs.Certificate o.writeCert
        match w1.2 with
        | some err =>
          ({ st with files := w1.1 }, .error ("Error escribiendo el certificado: " ++ err) 500)
        | none =>
        let w2 := WriteFile w1.1 (keyPath domain) certs.PrivateKey o.writeKey
        match w2.2 with
        | some err =>
          ({ st with files := w2.1 }, .error ("Error escribiendo la clave: " ++ err) 500)
        | none =>
        match o.exec with
        | some err =>
          ({ st with files := w2.1 }, .error ("Error guardando en la BD: " ++ err) 500)
        | none =>
          (insertRow st w2.1 email domain (certPath domain) (keyPath domain) o.now,
            .json [("message", "Certificado creado correctamente"), ("domain", domain),
              ("email", email), ("cert_path", certPath domain),
              ("key_path", keyPath domain)])

/-! ## `acme.renewCertificate` -/

/-- Effect of the statement
`UPDATE certificates SET created_at=$1 WHERE domain=$2`. -/
def updateCreatedAt (table : List Row) (created_at : Int) (domain : String) : List Row :=
  table.map (fun row => if row.domain = domain then { row with created_at := created_at } else row)

set_option linter.unusedVariables false in
/-- Go `renewCertificate(email, domain)`: the state afterwards and the error
returned (`none` for `nil`). -/
def renewCertificate (st : State) (email domain : String) (o : Outcomes) :
    State × Option String :=
  match o.generateKey with
  | some err => (st, some err)
  | none =>
  match o.newClient with
  | some err => (st, some err)
  | none =>
  match o.setHTTP01Provider with
  | some err => (st, some err)
  | none =>
  match o.register with
  | some err => (st, some err)
  | none =>
  match o.obtain with
  | .error err => (st, some err)
  | .ok certs =>
  let w1 := WriteFile st.files (certPath domain) certs.Certificate o.writeCert
  match w1.2 with
  | some err => ({ st with files := w1.1 }, some err)
  | none =>
  let w2 := WriteFile w1.1 (keyPath domain) certs.PrivateKey o.writeKey
  match w2.2 with
  | some err => ({ st with files := w2.1 }, some err)
  | none =>
  match o.exec with
  | some err => ({ st with files := w2.1 }, some err)
  | none =>
    ({ st with files := w2.1, table := updateCreatedAt st.table o.now domain }, none)

/-! ## `acme.renewCertificatesIfNeeded` -/

/-- Largest `time.Duration` (an `int64` count of nanoseconds). -/
def maxDuration : Int := 2 ^ 63 - 1

/-- Smallest `time.Duration`. -/
def minDuration : Int := -(2 ^ 63)

/-- Go `Time.Sub` on instants given in nanoseconds: the difference, saturated
to the range of `time.Duration`. -/
def Sub (t u : Int) : Int :=
  if maxDuration < t - u then maxDuration
  else if t - u < minDuration then minDuration
  else t - u

/-- Go `time.Until(t)` when the clock reads `now`. -/
def Until (t now : Int) : Int := Sub t now

/-- Go `time.Hour`, in nanoseconds. -/
def Hour : Int := 3600 * 1000000000

/-- What the environment answers during one run of
`renewCertificatesIfNeeded`: the error of `db.DB.Query`; the number of rows
after which `rows.Next()` reports the end early (`none`: after the last row);
and, for the row at position `i`, the error of `rows.Scan`, the clock when its
expiry is compared, and the outcomes of its renewal attempt. -/
structure ScanOutcomes where
  query : Option String
  stopAfter : Option Nat
  rowScan : Nat → Option String
  now : Nat → Int
  renew : Nat → Outcomes

/-- What happened to one row of the scan. -/
inductive ScanEvent where
  | scanFailed
  | readFailed
  | noPemBlock
  | parseFailed
  | notDue
  | renewal (email domain : String) (err : Option String)
  deriving DecidableEq, Repr

/-- The body of the `for rows.Next()` loop for the row at position `i`. -/
def scanRow {C : Type} (lib : Lib C) (so : ScanOutcomes) (i : Nat) (st : State)
    (row : Row) : State × ScanEvent :=
  match so.rowScan i with
  | some _ => (st, .scanFailed)
  | none =>
    let email := row.email
    let domain := row.domain
    match st.files (certPath domain) with
    | none => (st, .readFailed)
    | some data =>
      match lib.pemDecode data with
      | none => (st, .noPemBlock)
      | some block =>
        match lib.parseNotAfter block with
        | .error _ => (st, .parseFailed)
        | .ok notAfter =>
          if Until notAfter (so.now i) < 15 * 24 * Hour then
            let res := renewCertificate st email domain (so.renew i)
            (res.1, .renewal email domain res.2)
          else (st, .notDue)

/-- The `for rows.Next()` loop over the rows from position `i` on. -/
def scanLoop {C : Type} (lib : Lib C) (so : ScanOutcomes) :
    Nat → List Row → State → State × List ScanEvent
  | _, [], st => (st, [])
  | i, row :: rows, st =>
    let res := scanRow lib so i st row
    let rest := scanLoop lib so (i + 1) rows res.1
    (rest.1, res.2 :: rest.2)

/-- The rows the query `SELECT email, domain FROM certificates` delivers to the
loop: none when the query fails, otherwise the rows of the table up to the
point where `rows.Next()` reports the end. -/
def deliveredRows (st : State) (so : ScanOutcomes) : List Row :=
  match so.query with
  | some _ => []
  | none =>
    match so.stopAfter with
    | none => st.table
    | some n => st.table.take n

/-- Go `renewCertificatesIfNeeded`: the state afterwards and what happened to
each delivered row. -/
def renewCertificatesIfNeeded {C : Type} (lib : Lib C) (st : State) (so : ScanOutcomes) :
    State × List ScanEvent :=
  match so.query with
  | some _ => (st, [])
  | none => scanLoop lib so 0 (deliveredRows st so) st

/-- The renewal attempts of a scan, in order: `(email, domain)` of every call of
`renewCertificate`. -/
def attempts : List ScanEvent → List (String × String)
  | [] => []
  | .renewal email domain _ :: evs => (email, domain) :: attempts evs
  | _ :: evs => attempts evs

/-! ## Histories of the system -/

/-- One operation on the store: an HTTP request to `/generate-cert`, or one
tick of the renewal loop started by `StartAutoRenewalLoop`. -/
inductive Action where
  | issue (r : Request) (o : Outcomes)
  | scan (so : ScanOutcomes)

/-- What an operation reports. -/
inductive Output where
  | response (resp : Response)
  | scanned (events : List ScanEvent)
  deriving DecidableEq, Repr

/-- Run one operation. -/
def step {C : Type} (lib : Lib C) (st : State) : Action → State × Output
  | .issue r o => ((GenerateCertHandler st r o).1, .response (GenerateCertHandler st r o).2)
  | .scan so =>
    ((renewCertificatesIfNeeded lib st so).1, .scanned (renewCertificatesIfNeeded lib st so).2)

/-- Run a sequence of operations one after the other. -/
def run {C : Type} (lib : Lib C) : State → List Action → State × List Output
  | st, [] => (st, [])
  | st, a :: as =>
    let res := step lib st a
    let rest := run lib res.1 as
    (rest.1, res.2 :: rest.2)

/-! ## The stages of an issuance attempt -/

/-- The validated input of a request: the trimmed email and domain of a `POST`
request whose body decodes and whose two fields are not blank. -/
def Request.target (r : Request) : Option (String × String) :=
  if r.Method = "POST" then
    match r.Body with
    | .error _ => none
    | .ok req =>
      if TrimSpace req.Email = "" ∨ TrimSpace req.Domain = "" then none
      else some (TrimSpace req.Email, TrimSpace req.Domain)
  else none

/-- The material the provider hands over in an attempt: key generation, client
creation, challenge-provider setup, registration and `Obtain` all succeed. -/
def Outcomes.obtained (o : Outcomes) : Option Resource :=
  match o.generateKey with
  | some _ => none
  | none =>
  match o.newClient with
  | some _ => none
  | none =>
  match o.setHTTP01Provider with
  | some _ => none
  | none =>
  match o.register with
  | some _ => none
  | none =>
  match o.obtain with
  | .error _ => none
  | .ok certs => some certs

/-- The tail of `GenerateCertHandler` from the first `os.WriteFile` on. -/
def handlerStore (st : State) (email domain : String) (certs : Resource) (o : Outcomes) :
    State × Response :=
  let w1 := WriteFile st.files (certPath domain) certs.Certificate o.writeCert
  match w1.2 with
  | some err =>
    ({ st with files := w1.1 }, .error ("Error escribiendo el certificado: " ++ err) 500)
  | none =>
  let w2 := WriteFile w1.1 (keyPath domain) certs.PrivateKey o.writeKey
  match w2.2 with
  | some err =>
    ({ st with files := w2.1 }, .error ("Error escribiendo la clave: " ++ err) 500)
  | none =>
  match o.exec with
  | some err =>
    ({ st with files := w2.1 }, .error ("Error guardando en la BD: " ++ err) 500)
  | none =>
    (insertRow st w2.1 email domain (certPath domain) (keyPath domain) o.now,
      .json [("message", "Certificado creado correctamente"), ("domain", domain),
        ("email", email), ("cert_path", certPath domain),
        ("key_path", keyPath domain)])

/-- The tail of `renewCertificate` from the first `os.WriteFile` on. -/
def renewStore (st : State) (domain : String) (certs : Resource) (o : Outcomes) :
    State × Option String :=
  let w1 := WriteFile st.files (certPath domain) certs.Certificate o.writeCert
  match w1.2 with
  | some err => ({ st with files := w1.1 }, some err)
  | none =>
  let w2 := WriteFile w1.1 (keyPath domain) certs.PrivateKey o.writeKey
  match w2.2 with
  | some err => ({ st with files := w2.1 }, some err)
  | none =>
  match o.exec with
  | some err => ({ st with files := w2.1 }, some err)
  | none =>
    ({ st with files := w2.1, table := updateCreatedAt st.table o.now domain }, none)

/-! ## Notions used to state the properties -/

/-- The domain whose key file a request creates or overwrites: the request is
valid, the material is obtained, the directory is created, the certificate
file is written and the key file is opened for writing (the write itself may
still fail afterwards). -/
def keyWriteTarget (r : Request) (o : Outcomes) : Option String :=
  match r.target with
  | none => none
  | some (_, domain) =>
    match o.obtained with
    | none => none
    | some _ =>
      match o.mkdirAll with
      | some _ => none
      | none =>
        match o.writeCert with
        | .ok =>
          match o.writeKey with
          | .openFailed _ => none
          | _ => some domain
        | _ => none

/-- The store before anything was issued: the table has no row and the certs
directory holds no file. -/
def EmptyStore (st : State) : Prop :=
  st.table = [] ∧ ∀ f : String, '/' ∉ f.data → st.files ("certs/" ++ f) = none

/-- No key file is stored under the key path of `name`, and no row of the table
is for a domain with that key path. -/
def KeyFileFree (name : String) (st : State) : Prop :=
  st.files (keyPath name) = none ∧ ∀ row ∈ st.table, keyPath row.domain ≠ keyPath name

/-- The domains named by the success responses of a history, in order. -/
def issuedDomains : List Output → List String
  | [] => []
  | .response (.json fields) :: outs =>
    (match fields.lookup "domain" with
      | some d => [d]
      | none => []) ++ issuedDomains outs
  | _ :: outs => issuedDomains outs

/-! ## The sample library used in the concrete runs

A certificate file is the two numbers `[serial, notAfter]`, its key file the
number `[serial]`; the pair loads when the serials agree. -/

/-- A concrete instance of the library functions, for evaluating the code on
sample inputs. -/
def sampleLib : Lib Bytes where
  X509KeyPair := fun certPEMBlock keyPEMBlock =>
    match certPEMBlock, keyPEMBlock with
    | [serial, _], [serial2] =>
      if serial = serial2 then .ok certPEMBlock
      else .error "tls: private key does not match public key"
    | _, _ => .error "tls: failed to find any PEM data in input"
  pemDecode := fun data => if data = [] then none else some data
  parseNotAfter := fun block =>
    match block with
    | [_, notAfter] => .ok (Int.ofNat notAfter)
    | _ => .error "x509: malformed certificate"

/-- Outcomes of an attempt in which every external call succeeds and the
provider returns `certs`. -/
def allOk (certs : Resource) (now : Int) : Outcomes where
  generateKey := none
  newClient := none
  setHTTP01Provider := none
  register := none
  obtain := .ok certs
  mkdirAll := none
  writeCert := .ok
  writeKey := .ok
  exec := none
  now := now

/-- A well-formed request to `/generate-cert`. -/
def post (email domain : String) : Request := ⟨"POST", .ok ⟨email, domain⟩⟩

/-- Outcomes of an attempt that fails at account registration. -/
def registerFails : Outcomes :=
  { allOk ⟨[8, 900], [8]⟩ 200 with register := some "acme: error: 429 :: too many registrations" }

/-- The state after `example.test` was issued once with material of serial 7. -/
def issuedState : State :=
  (GenerateCertHandler emptyState (post "a@b.test" "example.test") (allOk ⟨[7, 500], [7]⟩ 100)).1

/-- Outcomes of an attempt that obtains material of serial 8 and writes the
certificate file, after which opening the key file fails. -/
def keyWriteFails : Outcomes :=
  { allOk ⟨[8, 900], [8]⟩ 200 with
    writeKey := .openFailed "open certs/example.test.key: permission denied" }

/-- Outcomes of an attempt that obtains material of serial 5 and writes the
certificate file, after which opening the key file fails. -/
def keyOpenFails : Outcomes :=
  { allOk ⟨[5, 700], [5]⟩ 50 with
    writeKey := .openFailed "open certs/other.test.key: permission denied" }

/-- Outcomes of an attempt that obtains material of serial 7 and writes both
files, after which the database statement fails. -/
def execFails : Outcomes :=
  { allOk ⟨[7, 500], [7]⟩ 100 with exec := some "pq: connection refused" }

/-- The state after three domains were issued, with certificates expiring 5,
20 and 400 days after instant 0. -/
def threeRecords : State :=
  (run sampleLib emptyState
    [.issue (post "a@b.test" "one.test") (allOk ⟨[1, 432000000000000], [1]⟩ 0),
      .issue (post "c@d.test" "two.test") (allOk ⟨[2, 1728000000000000], [2]⟩ 0),
      .issue (post "e@f.test" "three.test") (allOk ⟨[3, 34560000000000000], [3]⟩ 0)]).1

/-- A scan at instant 0 in which the query, every `rows.Scan` and every renewal
attempt succeed; renewed certificates expire 90 days later. -/
def scanAtZero : ScanOutcomes where
  query := none
  stopAfter := none
  rowScan := fun _ => none
  now := fun _ => 0
  renew := fun _ => allOk ⟨[9, 7776000000000000], [9]⟩ 0

/-- A scan six days after instant 0 in which every renewal attempt fails at
account registration. -/
def scanAllFail : ScanOutcomes where
  query := none
  stopAfter := none
  rowScan := fun _ => none
  now := fun _ => 518400000000000
  renew := fun _ => registerFails

/-- Outcomes of an attempt that obtains material of serial 8 and writes both
files, after which the database statement fails. -/
def renewExecFails : Outcomes :=
  { allOk ⟨[8, 900], [8]⟩ 200 with exec := some "pq: connection refused" }

/-! ## Normalization of server names, in the words of the specification -/

/-- The normalization the specification describes for a requested server name,
"strip port if present, lower-case"; no function of the repository computes
it. -/
def specNormalize (name : String) : String :=
  String.mk ((name.data.takeWhile (fun c => c ≠ ':')).map Char.toLower)

/-! ## Overdue records, in the words of the specification -/

/-- A record is overdue at instant `now` when its certificate file can be read
and parsed and `notAfter - now` is less than the renewal threshold of 15
days. -/
def overdue {C : Type} (lib : Lib C) (fs : Files) (now : Int) (row : Row) : Bool :=
  match fs (certPath row.domain) with
  | none => false
  | some data =>
    match lib.pemDecode data with
    | none => false
    | some block =>
      match lib.parseNotAfter block with
      | .error _ => false
      | .ok notAfter => decide (notAfter - now < 15 * 24 * Hour)

/-- The overdue records among `rows`, as `(email, domain)`, judged on the files
`fs`; the record at position `i` is judged at the instant `so.now i`, and a
record whose `rows.Scan` fails is not among them. -/
def overdueRecords {C : Type} (lib : Lib C) (so : ScanOutcomes) (fs : Files) :
    Nat → List Row → List (String × String)
  | _, [] => []
  | i, row :: rows =>
    (if so.rowScan i = none ∧ overdue lib fs (so.now i) row = true
      then [(row.email, row.domain)] else []) ++ overdueRecords lib so fs (i + 1) rows

/-! ## Facts about paths -/

theorem splitSep_noSep (s : List Char) (hs : '/' ∉ s) : splitSep s = [s] := by
  induction s with
  | nil => rfl
  | cons c cs ih =>
    have hc : c ≠ '/' := fun h => hs (by simp [h])
    have hcs : '/' ∉ cs := fun h => hs (List.mem_cons_of_mem _ h)
    simp [splitSep, hc, ih hcs]

theorem splitSep_append_noSep (xs s : List Char) (hs : '/' ∉ s) :
    ∃ init l, splitSep xs = init ++ [l] ∧ splitSep (xs ++ s) = init ++ [l ++ s] := by
  induction xs with
  | nil => exact ⟨[], [], rfl, by simpa using splitSep_noSep s hs⟩
  | cons c cs ih =>
    obtain ⟨init, l, h1, h2⟩ := ih
    by_cases hc : c = '/'
    · exact ⟨[] :: init, l, by simp [splitSep, hc, h1], by simp [splitSep, hc, h2]⟩
    · cases init with
      | nil => exact ⟨[], c :: l, by simp [splitSep, hc, h1], by simp [splitSep, hc, h2]⟩
      | cons i is =>
        exact ⟨(c :: i) :: is, l, by simp [splitSep, hc, h1], by simp [splitSep, hc, h2]⟩

theorem joinSep_cons_of_ne_nil (x : List Char) (l : List (List Char)) (hl : l ≠ []) :
    joinSep (x :: l) = x ++ '/' :: joinSep l := by
  cases l with
  | nil => exact absurd rfl hl
  | cons y rest => rfl

theorem joinSep_append_singleton (ys : List (List Char)) (x : List Char) :
    ∃ pre, joinSep (ys ++ [x]) = pre ++ x := by
  induction ys with
  | nil => exact ⟨[], rfl⟩
  | cons y ys ih =>
    obtain ⟨pre, hpre⟩ := ih
    refine ⟨y ++ '/' :: pre, ?_⟩
    rw [List.cons_append, joinSep_cons_of_ne_nil _ _ (by simp), hpre]
    simp

theorem cleanStep_real (rooted : Bool) (stack : List (List Char)) (el : List Char)
    (h : 3 ≤ el.length) : cleanStep rooted stack el = el :: stack := by
  have h0 : el ≠ [] := by intro h0; simp [h0] at h
  have h1 : el ≠ ['.'] := by intro h1; simp [h1] at h
  have h2 : el ≠ ['.', '.'] := by intro h2; simp [h2] at h
  simp [cleanStep, h0, h1, h2]

/-- A cleaned path keeps a final run of three or more characters without
separator: it is the end of the last path element, which is a real one. -/
theorem cleanChars_append_suffix (p s : List Char) (hs : '/' ∉ s) (hlen : 3 ≤ s.length) :
    ∃ pre, cleanChars (p ++ s) = pre ++ s := by
  obtain ⟨init, l, -, h2⟩ := splitSep_append_noSep p s hs
  have hs0 : s ≠ [] := by intro h0; simp [h0] at hlen
  have hne : p ++ s ≠ [] := by simp [hs0]
  have hl : 3 ≤ (l ++ s).length := by rw [List.length_append]; omega
  unfold cleanChars
  simp only [hne, if_false, h2, List.foldl_append, List.foldl_cons, List.foldl_nil]
  generalize decide ((p ++ s).head? = some '/') = rooted
  rw [cleanStep_real _ _ _ hl]
  simp only [List.reverse_cons]
  obtain ⟨pre, hpre⟩ := joinSep_append_singleton
    (List.foldl (cleanStep rooted) [] init).reverse (l ++ s)
  rw [hpre]
  cases rooted
  · exact ⟨pre ++ l, by simp [hs0]⟩
  · exact ⟨'/' :: (pre ++ l), by simp⟩

theorem certPath_suffix (d : String) : ∃ pre, (certPath d).data = pre ++ ".crt".data := by
  obtain ⟨pre, h⟩ := cleanChars_append_suffix ("certs".data ++ '/' :: d.data) ".crt".data
    (by decide) (by decide)
  refine ⟨pre, ?_⟩
  simp only [certPath, Join, String.data_append]
  rw [← h]
  simp

theorem keyPath_suffix (d : String) : ∃ pre, (keyPath d).data = pre ++ ".key".data := by
  obtain ⟨pre, h⟩ := cleanChars_append_suffix ("certs".data ++ '/' :: d.data) ".key".data
    (by decide) (by decide)
  refine ⟨pre, ?_⟩
  simp only [keyPath, Join, String.data_append]
  rw [← h]
  simp

/-- The certificate file of one domain is never the key file of another (or of
the same) domain: the names end in `.crt` and `.key`. -/
theorem certPath_ne_keyPath (d e : String) : certPath d ≠ keyPath e := by
  intro h
  obtain ⟨p1, h1⟩ := certPath_suffix d
  obtain ⟨p2, h2⟩ := keyPath_suffix e
  rw [h, h2] at h1
  have := List.append_inj_right' h1 (by decide)
  revert this
  decide

/-- A domain without separator is stored under its own name, unchanged. -/
theorem cleanChars_certs (x : List Char) (hx : '/' ∉ x) (hlen : 3 ≤ x.length) :
    cleanChars ("certs".data ++ '/' :: x) = "certs".data ++ '/' :: x := by
  have hsplit : splitSep ("certs".data ++ '/' :: x) = ["certs".data, x] := by
    have h := splitSep_noSep x hx
    simp [splitSep, h]
  have hx0 : x ≠ [] := by intro h0; simp [h0] at hlen
  unfold cleanChars
  rw [hsplit]
  simp only [List.foldl_cons, List.foldl_nil]
  rw [cleanStep_real _ _ "certs".data (by decide), cleanStep_real _ _ x hlen]
  simp [joinSep]

theorem certPath_verbatim (s : String) (hs : '/' ∉ s.data) :
    certPath s = "certs/" ++ s ++ ".crt" := by
  have h := cleanChars_certs (s.data ++ ".crt".data)
    (by simp only [List.mem_append, not_or]; exact ⟨hs, by decide⟩)
    (by simp)
  apply String.ext
  simp only [certPath, Join, String.data_append]
  rw [h]
  simp

theorem keyPath_verbatim (s : String) (hs : '/' ∉ s.data) :
    keyPath s = "certs/" ++ s ++ ".key" := by
  have h := cleanChars_certs (s.data ++ ".key".data)
    (by simp only [List.mem_append, not_or]; exact ⟨hs, by decide⟩)
    (by simp)
  apply String.ext
  simp only [keyPath, Join, String.data_append]
  rw [h]
  simp

/-- Two names without separator that differ have different key files. -/
theorem keyPath_ne_of_ne (d name : String) (hd : '/' ∉ d.data) (hn : '/' ∉ name.data)
    (hne : d ≠ name) : keyPath d ≠ keyPath name := by
  intro h
  rw [keyPath_verbatim d hd, keyPath_verbatim name hn] at h
  have h2 := congrArg String.data h
  simp only [String.data_append] at h2
  exact hne (String.ext (List.append_cancel_left (List.append_cancel_right h2)))

/-! ## Facts about the stages of an attempt -/

theorem target_some (r : Request) (email domain : String)
    (h : r.target = some (email, domain)) :
    ∃ req, r.Body = .ok req ∧ email = TrimSpace req.Email ∧ domain = TrimSpace req.Domain := by
  obtain ⟨m, body⟩ := r
  unfold Request.target at h
  by_cases hm : m = "POST"
  · cases body with
    | error e => simp [hm] at h
    | ok req =>
      by_cases hb : TrimSpace req.Email = "" ∨ TrimSpace req.Domain = ""
      · simp [hm, hb] at h
      · simp only [hm, hb, if_true, if_false, Option.some.injEq, Prod.mk.injEq] at h
        exact ⟨req, rfl, h.1.symm, h.2.symm⟩
  · simp [hm] at h

theorem GenerateCertHandler_no_target (st : State) (r : Request) (o : Outcomes)
    (h : r.target = none) :
    (GenerateCertHandler st r o).1 = st ∧
      ∃ msg code, (GenerateCertHandler st r o).2 = .error msg code := by
  obtain ⟨m, body⟩ := r
  unfold Request.target at h
  unfold GenerateCertHandler
  by_cases hm : m = "POST"
  · cases body with
    | error e => simp [hm]
    | ok req =>
      by_cases hb : TrimSpace req.Email = "" ∨ TrimSpace req.Domain = ""
      · simp [hm, hb]
      · simp [hm, hb] at h
  · simp [hm]

theorem GenerateCertHandler_not_obtained (st : State) (r : Request) (o : Outcomes)
    (h : o.obtained = none) :
    (GenerateCertHandler st r o).1 = st ∧
      ∃ msg code, (GenerateCertHandler st r o).2 = .error msg code := by
  obtain ⟨m, body⟩ := r
  obtain ⟨gk, nc, sp, rg, ob, mk, wc, wk, ex, now⟩ := o
  unfold Outcomes.obtained at h
  unfold GenerateCertHandler
  by_cases hm : m = "POST"
  · cases body with
    | error e => simp [hm]
    | ok req =>
      by_cases hb : TrimSpace req.Email = "" ∨ TrimSpace req.Domain = ""
      · simp [hm, hb]
      · cases gk <;> cases nc <;> cases sp <;> cases rg <;> cases ob <;>
          simp [hm, hb] at h ⊢
  · simp [hm]

theorem GenerateCertHandler_mkdir_failed (st : State) (r : Request) (o : Outcomes)
    (err : String) (h : o.mkdirAll = some err) :
    (GenerateCertHandler st r o).1 = st ∧
      ∃ msg code, (GenerateCertHandler st r o).2 = .error msg code := by
  obtain ⟨m, body⟩ := r
  obtain ⟨gk, nc, sp, rg, ob, mk, wc, wk, ex, now⟩ := o
  simp only at h
  subst h
  unfold GenerateCertHandler
  by_cases hm : m = "POST"
  · cases body with
    | error e => simp [hm]
    | ok req =>
      by_cases hb : TrimSpace req.Email = "" ∨ TrimSpace req.Domain = ""
      · simp [hm, hb]
      · cases gk <;> cases nc <;> cases sp <;> cases rg <;> cases ob <;>
          simp [hm, hb]
  · simp [hm]

theorem GenerateCertHandler_store (st : State) (r : Request) (o : Outcomes)
    (email domain : String) (certs : Resource)
    (ht : r.target = some (email, domain)) (hob : o.obtained = some certs)
    (hmk : o.mkdirAll = none) :
    GenerateCertHandler st r o = handlerStore st email domain certs o := by
  obtain ⟨m, body⟩ := r
  obtain ⟨gk, nc, sp, rg, ob, mk, wc, wk, ex, now⟩ := o
  simp only at hmk
  subst hmk
  unfold Request.target at ht
  unfold Outcomes.obtained at hob
  unfold GenerateCertHandler handlerStore
  by_cases hm : m = "POST"
  · cases body with
    | error e => simp [hm] at ht
    | ok req =>
      by_cases hb : TrimSpace req.Email = "" ∨ TrimSpace req.Domain = ""
      · simp [hm, hb] at ht
      · simp only [hm, hb, if_true, if_false, Option.some.injEq, Prod.mk.injEq] at ht
        obtain ⟨he, hd⟩ := ht
        subst he hd
        cases gk <;> cases nc <;> cases sp <;> cases rg <;> cases ob <;>
          simp [hm, hb] at hob ⊢
        subst hob
        rfl
  · simp [hm] at ht

theorem renewCertificate_not_obtained (st : State) (email domain : String) (o : Outcomes)
    (h : o.obtained = none) :
    (renewCertificate st email domain o).1 = st ∧
      ∃ err, (renewCertificate st email domain o).2 = some err := by
  obtain ⟨gk, nc, sp, rg, ob, mk, wc, wk, ex, now⟩ := o
  unfold Outcomes.obtained at h
  unfold renewCertificate
  cases gk <;> cases nc <;> cases sp <;> cases rg <;> cases ob <;> simp at h ⊢

theorem renewCertificate_store (st : State) (email domain : String) (o : Outcomes)
    (certs : Resource) (hob : o.obtained = some certs) :
    renewCertificate st email domain o = renewStore st domain certs o := by
  obtain ⟨gk, nc, sp, rg, ob, mk, wc, wk, ex, now⟩ := o
  unfold Outcomes.obtained at hob
  unfold renewCertificate renewStore
  cases gk <;> cases nc <;> cases sp <;> cases rg <;> cases ob <;> simp at hob ⊢
  subst hob
  rfl

theorem obtained_some (o : Outcomes) (certs : Resource) (h : o.obtained = some certs) :
    o.obtain = .ok certs := by
  obtain ⟨gk, nc, sp, rg, ob, mk, wc, wk, ex, now⟩ := o
  unfold Outcomes.obtained at h
  cases gk <;> cases nc <;> cases sp <;> cases rg <;> cases ob <;> simp at h ⊢
  exact h

theorem obtained_none_of_failed (o : Outcomes)
    (h : o.newClient ≠ none ∨ o.setHTTP01Provider ≠ none ∨ o.register ≠ none ∨
      ∃ err, o.obtain = .error err) : o.obtained = none := by
  obtain ⟨gk, nc, sp, rg, ob, mk, wc, wk, ex, now⟩ := o
  unfold Outcomes.obtained
  cases gk <;> cases nc <;> cases sp <;> cases rg <;> cases ob <;> simp at h ⊢

theorem handlerStore_files_other (st : State) (email domain : String) (certs : Resource)
    (o : Outcomes) (p : String) (h1 : p ≠ certPath domain) (h2 : p ≠ keyPath domain) :
    (handlerStore st email domain certs o).1.files p = st.files p := by
  obtain ⟨gk, nc, sp, rg, ob, mk, wc, wk, ex, now⟩ := o
  unfold handlerStore
  cases wc <;> cases wk <;> cases ex <;> simp [WriteFile, insertRow, h1, h2]

theorem renewStore_files_other (st : State) (domain : String) (certs : Resource)
    (o : Outcomes) (p : String) (h1 : p ≠ certPath domain) (h2 : p ≠ keyPath domain) :
    (renewStore st domain certs o).1.files p = st.files p := by
  obtain ⟨gk, nc, sp, rg, ob, mk, wc, wk, ex, now⟩ := o
  unfold renewStore
  cases wc <;> cases wk <;> cases ex <;> simp [WriteFile, h1, h2]

theorem handlerStore_certFile_only (st : State) (email domain : String) (certs : Resource)
    (o : Outcomes) (h : o.writeCert ≠ .ok) (p : String) (hp : p ≠ certPath domain) :
    (handlerStore st email domain certs o).1.files p = st.files p := by
  obtain ⟨gk, nc, sp, rg, ob, mk, wc, wk, ex, now⟩ := o
  unfold handlerStore
  cases wc <;> simp [WriteFile, hp] at h ⊢

theorem handlerStore_keyOpenFailed (st : State) (email domain : String) (certs : Resource)
    (o : Outcomes) (err : String) (h : o.writeKey = .openFailed err) (p : String)
    (hp : p ≠ certPath domain) :
    (handlerStore st email domain certs o).1.files p = st.files p := by
  obtain ⟨gk, nc, sp, rg, ob, mk, wc, wk, ex, now⟩ := o
  simp only at h
  subst h
  unfold handlerStore
  cases wc <;> simp [WriteFile, hp]

theorem handlerStore_both_written (st : State) (email domain : String) (certs : Resource)
    (o : Outcomes) (h1 : o.writeCert = .ok) (h2 : o.writeKey = .ok) :
    (handlerStore st email domain certs o).1.files (certPath domain) = some certs.Certificate ∧
    (handlerStore st email domain certs o).1.files (keyPath domain) = some certs.PrivateKey := by
  obtain ⟨gk, nc, sp, rg, ob, mk, wc, wk, ex, now⟩ := o
  simp only at h1 h2
  subst h1 h2
  have hne : certPath domain ≠ keyPath domain := certPath_ne_keyPath _ _
  unfold handlerStore
  cases ex <;> simp [WriteFile, insertRow, hne]

theorem renewStore_both_written (st : State) (domain : String) (certs : Resource)
    (o : Outcomes) (h1 : o.writeCert = .ok) (h2 : o.writeKey = .ok) :
    (renewStore st domain certs o).1.files (certPath domain) = some certs.Certificate ∧
    (renewStore st domain certs o).1.files (keyPath domain) = some certs.PrivateKey := by
  obtain ⟨gk, nc, sp, rg, ob, mk, wc, wk, ex, now⟩ := o
  simp only at h1 h2
  subst h1 h2
  have hne : certPath domain ≠ keyPath domain := certPath_ne_keyPath _ _
  unfold renewStore
  cases ex <;> simp [WriteFile, hne]

theorem handlerStore_openFailed (st : State) (email domain : String) (certs : Resource)
    (o : Outcomes) (err : String) (h : o.writeCert = .openFailed err) :
    (handlerStore st email domain certs o).1 = st := by
  obtain ⟨gk, nc, sp, rg, ob, mk, wc, wk, ex, now⟩ := o
  simp only at h
  subst h
  simp [handlerStore, WriteFile]

theorem renewStore_openFailed (st : State) (domain : String) (certs : Resource)
    (o : Outcomes) (err : String) (h : o.writeCert = .openFailed err) :
    (renewStore st domain certs o).1 = st := by
  obtain ⟨gk, nc, sp, rg, ob, mk, wc, wk, ex, now⟩ := o
  simp only at h
  subst h
  simp [renewStore, WriteFile]

/-- The response of the storing stage decides what happened to the table: an
error response leaves it alone, the success response comes with exactly one
new row, and with both writes and the insert having gone through. -/
theorem handlerStore_table (st : State) (email domain : String) (certs : Resource)
    (o : Outcomes) :
    ((handlerStore st email domain certs o).1.table = st.table ∧
      (handlerStore st email domain certs o).1.nextId = st.nextId ∧
      ∃ msg code, (handlerStore st email domain certs o).2 = .error msg code) ∨
    (o.writeCert = .ok ∧ o.writeKey = .ok ∧ o.exec = none ∧
      (handlerStore st email domain certs o).1.table =
        st.table ++ [⟨st.nextId, email, domain, certPath domain, keyPath domain, o.now⟩] ∧
      (handlerStore st email domain certs o).2 =
        .json [("message", "Certificado creado correctamente"), ("domain", domain),
          ("email", email), ("cert_path", certPath domain),
          ("key_path", keyPath domain)]) := by
  obtain ⟨gk, nc, sp, rg, ob, mk, wc, wk, ex, now⟩ := o
  unfold handlerStore
  cases wc <;> cases wk <;> cases ex <;> simp [WriteFile, insertRow]

theorem renewStore_table (st : State) (domain : String) (certs : Resource) (o : Outcomes) :
    (renewStore st domain certs o).1.table = st.table ∨
    (renewStore st domain certs o).1.table = updateCreatedAt st.table o.now domain := by
  obtain ⟨gk, nc, sp, rg, ob, mk, wc, wk, ex, now⟩ := o
  unfold renewStore
  cases wc <;> cases wk <;> cases ex <;> simp [WriteFile]

/-- Every run of `GenerateCertHandler` either answers with an error and leaves
the table alone, or answers with the success response for the validated
target, after obtaining material, writing both files and inserting one row. -/
theorem GenerateCertHandler_outcome (st : State) (r : Request) (o : Outcomes) :
    ((GenerateCertHandler st r o).1.table = st.table ∧
      (GenerateCertHandler st r o).1.nextId = st.nextId ∧
      ∃ msg code, (GenerateCertHandler st r o).2 = .error msg code) ∨
    (∃ email domain certs, r.target = some (email, domain) ∧ o.obtained = some certs ∧
      o.mkdirAll = none ∧ o.writeCert = .ok ∧ o.writeKey = .ok ∧ o.exec = none ∧
      (GenerateCertHandler st r o).1.table =
        st.table ++ [⟨st.nextId, email, domain, certPath domain, keyPath domain, o.now⟩] ∧
      (GenerateCertHandler st r o).2 =
        .json [("message", "Certificado creado correctamente"), ("domain", domain),
          ("email", email), ("cert_path", certPath domain),
          ("key_path", keyPath domain)]) := by
  cases ht : r.target with
  | none =>
    obtain ⟨h1, h2⟩ := GenerateCertHandler_no_target st r o ht
    exact Or.inl ⟨by rw [h1], by rw [h1], h2⟩
  | some t =>
    obtain ⟨email, domain⟩ := t
    cases hob : o.obtained with
    | none =>
      obtain ⟨h1, h2⟩ := GenerateCertHandler_not_obtained st r o hob
      exact Or.inl ⟨by rw [h1], by rw [h1], h2⟩
    | some certs =>
      cases hmk : o.mkdirAll with
      | some err =>
        obtain ⟨h1, h2⟩ := GenerateCertHandler_mkdir_failed st r o err hmk
        exact Or.inl ⟨by rw [h1], by rw [h1], h2⟩
      | none =>
        rw [GenerateCertHandler_store st r o email domain certs ht hob hmk]
        rcases handlerStore_table st email domain certs o with h | ⟨h1, h2, h3, h4, h5⟩
        · exact Or.inl h
        · exact Or.inr ⟨email, domain, certs, rfl, rfl, rfl, h1, h2, h3, h4, h5⟩

/-! ## Frame properties of issuance, renewal and the scan -/

theorem GenerateCertHandler_keyFile (st : State) (r : Request) (o : Outcomes) (name : String)
    (h : ∀ d, keyWriteTarget r o = some d → keyPath d ≠ keyPath name) :
    (GenerateCertHandler st r o).1.files (keyPath name) = st.files (keyPath name) := by
  cases ht : r.target with
  | none => rw [(GenerateCertHandler_no_target st r o ht).1]
  | some t =>
    obtain ⟨em, dom⟩ := t
    cases hob : o.obtained with
    | none => rw [(GenerateCertHandler_not_obtained st r o hob).1]
    | some certs =>
      cases hmk : o.mkdirAll with
      | some err => rw [(GenerateCertHandler_mkdir_failed st r o err hmk).1]
      | none =>
        rw [GenerateCertHandler_store st r o em dom certs ht hob hmk]
        have hck : keyPath name ≠ certPath dom := fun e => certPath_ne_keyPath _ _ e.symm
        by_cases hw : o.writeCert = .ok
        · cases hwk : o.writeKey with
          | openFailed err => exact handlerStore_keyOpenFailed st em dom certs o err hwk _ hck
          | ok =>
            have hk : keyWriteTarget r o = some dom := by
              simp [keyWriteTarget, ht, hob, hmk, hw, hwk]
            exact handlerStore_files_other st em dom certs o _ hck (fun e => h dom hk e.symm)
          | writeFailed err n =>
            have hk : keyWriteTarget r o = some dom := by
              simp [keyWriteTarget, ht, hob, hmk, hw, hwk]
            exact handlerStore_files_other st em dom certs o _ hck (fun e => h dom hk e.symm)
        · exact handlerStore_certFile_only st em dom certs o hw _ hck

theorem GenerateCertHandler_new_row (st : State) (r : Request) (o : Outcomes) (row : Row)
    (h : row ∈ (GenerateCertHandler st r o).1.table) :
    row ∈ st.table ∨ keyWriteTarget r o = some row.domain := by
  rcases GenerateCertHandler_outcome st r o with ⟨ht, -, -⟩ |
    ⟨email, domain, certs, ht, hob, hmk, hw1, hw2, -, htab, -⟩
  · rw [ht] at h
    exact Or.inl h
  · rw [htab] at h
    rcases List.mem_append.mp h with h | h
    · exact Or.inl h
    · right
      simp only [List.mem_singleton] at h
      subst h
      simp [keyWriteTarget, ht, hob, hmk, hw1, hw2]

theorem updateCreatedAt_domains (table : List Row) (created_at : Int) (domain : String) :
    (updateCreatedAt table created_at domain).map Row.domain = table.map Row.domain := by
  induction table with
  | nil => rfl
  | cons row rows ih =>
    simp only [updateCreatedAt, List.map_cons] at ih ⊢
    rw [ih]
    by_cases h : row.domain = domain <;> simp [h]

theorem renewCertificate_domains (st : State) (email domain : String) (o : Outcomes) :
    (renewCertificate st email domain o).1.table.map Row.domain = st.table.map Row.domain := by
  cases hob : o.obtained with
  | none => rw [(renewCertificate_not_obtained st email domain o hob).1]
  | some certs =>
    rw [renewCertificate_store st email domain o certs hob]
    rcases renewStore_table st domain certs o with h | h
    · rw [h]
    · rw [h, updateCreatedAt_domains]

theorem renewCertificate_files_other (st : State) (email domain : String) (o : Outcomes)
    (p : String) (h1 : p ≠ certPath domain) (h2 : p ≠ keyPath domain) :
    (renewCertificate st email domain o).1.files p = st.files p := by
  cases hob : o.obtained with
  | none => rw [(renewCertificate_not_obtained st email domain o hob).1]
  | some certs =>
    rw [renewCertificate_store st email domain o certs hob]
    exact renewStore_files_other st domain certs o p h1 h2

/-- One turn of the scan loop either leaves the state alone and makes no
renewal attempt, or is one call of `renewCertificate` with the email and the
domain of the row. -/
theorem scanRow_cases {C : Type} (lib : Lib C) (so : ScanOutcomes) (i : Nat) (st : State)
    (row : Row) :
    ((scanRow lib so i st row).1 = st ∧ attempts [(scanRow lib so i st row).2] = []) ∨
    ((scanRow lib so i st row).1 = (renewCertificate st row.email row.domain (so.renew i)).1 ∧
      (scanRow lib so i st row).2 = .renewal row.email row.domain
        (renewCertificate st row.email row.domain (so.renew i)).2) := by
  unfold scanRow
  cases h1 : so.rowScan i with
  | some e => exact Or.inl ⟨rfl, rfl⟩
  | none =>
    cases h2 : st.files (certPath row.domain) with
    | none => exact Or.inl (by simp [h2, attempts])
    | some data =>
      cases h3 : lib.pemDecode data with
      | none => exact Or.inl (by simp [h2, h3, attempts])
      | some block =>
        cases h4 : lib.parseNotAfter block with
        | error e => exact Or.inl (by simp [h2, h3, h4, attempts])
        | ok notAfter =>
          by_cases hd : Until notAfter (so.now i) < 15 * 24 * Hour
          · exact Or.inr (by simp only [h2, h3, h4, if_pos hd, and_self])
          · exact Or.inl (by simp only [h2, h3, h4, if_neg hd, attempts, and_self])

theorem scanRow_domains {C : Type} (lib : Lib C) (so : ScanOutcomes) (i : Nat) (st : State)
    (row : Row) :
    (scanRow lib so i st row).1.table.map Row.domain = st.table.map Row.domain := by
  rcases scanRow_cases lib so i st row with ⟨h, -⟩ | ⟨h, -⟩
  · rw [h]
  · rw [h, renewCertificate_domains]

theorem scanRow_files_other {C : Type} (lib : Lib C) (so : ScanOutcomes) (i : Nat)
    (st : State) (row : Row) (p : String) (h1 : p ≠ certPath row.domain)
    (h2 : p ≠ keyPath row.domain) :
    (scanRow lib so i st row).1.files p = st.files p := by
  rcases scanRow_cases lib so i st row with ⟨h, -⟩ | ⟨h, -⟩
  · rw [h]
  · rw [h, renewCertificate_files_other _ _ _ _ _ h1 h2]

theorem scanLoop_domains {C : Type} (lib : Lib C) (so : ScanOutcomes) (rows : List Row) :
    ∀ (i : Nat) (st : State),
      (scanLoop lib so i rows st).1.table.map Row.domain = st.table.map Row.domain := by
  induction rows with
  | nil => intro i st; rfl
  | cons row rows ih =>
    intro i st
    simp only [scanLoop]
    rw [ih, scanRow_domains]

theorem scanLoop_files_other {C : Type} (lib : Lib C) (so : ScanOutcomes) (p : String)
    (rows : List Row) :
    ∀ (i : Nat) (st : State),
      (∀ row ∈ rows, p ≠ certPath row.domain ∧ p ≠ keyPath row.domain) →
      (scanLoop lib so i rows st).1.files p = st.files p := by
  induction rows with
  | nil => intro i st _; rfl
  | cons row rows ih =>
    intro i st h
    simp only [scanLoop]
    rw [ih _ _ (fun r hr => h r (List.mem_cons_of_mem _ hr)),
      scanRow_files_other lib so i st row p (h row (List.mem_cons_self _ _)).1
        (h row (List.mem_cons_self _ _)).2]

theorem scanLoop_length {C : Type} (lib : Lib C) (so : ScanOutcomes) (rows : List Row) :
    ∀ (i : Nat) (st : State), (scanLoop lib so i rows st).2.length = rows.length := by
  induction rows with
  | nil => intro i st; rfl
  | cons row rows ih =>
    intro i st
    simp only [scanLoop, List.length_cons]
    rw [ih]

theorem deliveredRows_subset (st : State) (so : ScanOutcomes) (row : Row)
    (h : row ∈ deliveredRows st so) : row ∈ st.table := by
  unfold deliveredRows at h
  cases hq : so.query with
  | some e => simp [hq] at h
  | none =>
    cases hs : so.stopAfter with
    | none => simpa [hq, hs] using h
    | some n =>
      simp only [hq, hs] at h
      exact List.mem_of_mem_take h

theorem renewCertificatesIfNeeded_eq {C : Type} (lib : Lib C) (st : State)
    (so : ScanOutcomes) :
    renewCertificatesIfNeeded lib st so = scanLoop lib so 0 (deliveredRows st so) st := by
  unfold renewCertificatesIfNeeded
  cases hq : so.query with
  | some e => simp [deliveredRows, hq, scanLoop]
  | none => rfl

theorem renewCertificatesIfNeeded_domains {C : Type} (lib : Lib C) (st : State)
    (so : ScanOutcomes) :
    (renewCertificatesIfNeeded lib st so).1.table.map Row.domain = st.table.map Row.domain := by
  rw [renewCertificatesIfNeeded_eq]
  exact scanLoop_domains lib so _ 0 st

theorem renewCertificatesIfNeeded_files_other {C : Type} (lib : Lib C) (st : State)
    (so : ScanOutcomes) (p : String)
    (h : ∀ row ∈ st.table, p ≠ certPath row.domain ∧ p ≠ keyPath row.domain) :
    (renewCertificatesIfNeeded lib st so).1.files p = st.files p := by
  rw [renewCertificatesIfNeeded_eq]
  exact scanLoop_files_other lib so p _ 0 st
    (fun row hr => h row (deliveredRows_subset st so row hr))

/-! ## The scan, record by record -/

theorem Until_lt_iff (t now : Int) :
    Until t now < 15 * 24 * Hour ↔ t - now < 15 * 24 * Hour := by
  unfold Until Sub maxDuration minDuration Hour
  split_ifs <;> constructor <;> intro h <;> omega

/-- The event of one turn of the loop for a record whose `rows.Scan` succeeds
and whose certificate file reads, decodes and parses. -/
theorem scanRow_parsed {C : Type} (lib : Lib C) (so : ScanOutcomes) (i : Nat) (st : State)
    (row : Row) (data block : Bytes) (notAfter : Int)
    (hscan : so.rowScan i = none)
    (hread : st.files (certPath row.domain) = some data)
    (hpem : lib.pemDecode data = some block)
    (hparse : lib.parseNotAfter block = .ok notAfter) :
    (scanRow lib so i st row).2 =
      if notAfter - so.now i < 15 * 24 * Hour then
        .renewal row.email row.domain
          (renewCertificate st row.email row.domain (so.renew i)).2
      else .notDue := by
  unfold scanRow
  simp only [hscan, hread, hpem, hparse]
  by_cases hd : notAfter - so.now i < 15 * 24 * Hour
  · rw [if_pos hd, if_pos ((Until_lt_iff _ _).mpr hd)]
  · rw [if_neg hd, if_neg (fun h => hd ((Until_lt_iff _ _).mp h))]

/-- One turn of the loop makes a renewal attempt, for the email and domain of
the row, exactly when `rows.Scan` succeeds and the record is overdue on the
files as they are at that turn. -/
theorem scanRow_attempts {C : Type} (lib : Lib C) (so : ScanOutcomes) (i : Nat) (st : State)
    (row : Row) :
    attempts [(scanRow lib so i st row).2] =
      if so.rowScan i = none ∧ overdue lib st.files (so.now i) row = true
        then [(row.email, row.domain)] else [] := by
  unfold scanRow overdue
  cases h1 : so.rowScan i with
  | some e => simp [attempts]
  | none =>
    cases h2 : st.files (certPath row.domain) with
    | none => simp [attempts, h2]
    | some data =>
      cases h3 : lib.pemDecode data with
      | none => simp [attempts, h2, h3]
      | some block =>
        cases h4 : lib.parseNotAfter block with
        | error e => simp [attempts, h2, h3, h4]
        | ok notAfter =>
          by_cases hd : notAfter - so.now i < 15 * 24 * Hour
          · have hu := (Until_lt_iff notAfter (so.now i)).mpr hd
            simp only [h2, h3, h4, if_pos hu, attempts, hd, decide_True, and_self, if_true]
          · have hu : ¬ Until notAfter (so.now i) < 15 * 24 * Hour :=
              fun h => hd ((Until_lt_iff _ _).mp h)
            simp only [h2, h3, h4, if_neg hu, attempts, hd, decide_False, Bool.false_eq_true,
              and_false, if_false]

theorem scanLoop_event_at {C : Type} (lib : Lib C) (so : ScanOutcomes) (pre : List Row)
    (row : Row) (post : List Row) :
    ∀ (i : Nat) (st : State),
      (scanLoop lib so i (pre ++ row :: post) st).2[pre.length]? =
        some (scanRow lib so (i + pre.length) (scanLoop lib so i pre st).1 row).2 := by
  induction pre with
  | nil => intro i st; simp [scanLoop]
  | cons p pre ih =>
    intro i st
    have e : i + 1 + pre.length = i + (pre.length + 1) := by omega
    have h := ih (i + 1) (scanRow lib so i st p).1
    rw [e] at h
    simpa only [List.cons_append, scanLoop, List.length_cons, List.getElem?_cons_succ] using h

theorem attempts_cons (ev : ScanEvent) (evs : List ScanEvent) :
    attempts (ev :: evs) = attempts [ev] ++ attempts evs := by
  cases ev <;> simp [attempts]

theorem overdueRecords_congr {C : Type} (lib : Lib C) (so : ScanOutcomes) (fs fs2 : Files)
    (rows : List Row) :
    ∀ i : Nat, (∀ row ∈ rows, fs (certPath row.domain) = fs2 (certPath row.domain)) →
      overdueRecords lib so fs i rows = overdueRecords lib so fs2 i rows := by
  induction rows with
  | nil => intro i _; rfl
  | cons row rows ih =>
    intro i h
    simp only [overdueRecords]
    rw [ih (i + 1) (fun r hr => h r (List.mem_cons_of_mem _ hr))]
    have h0 : overdue lib fs (so.now i) row = overdue lib fs2 (so.now i) row := by
      unfold overdue
      rw [h row (List.mem_cons_self _ _)]
    rw [h0]

/-- When the records have pairwise distinct certificate files, the renewal
attempts of the loop are the records overdue on the files at its start. -/
theorem scanLoop_attempts_distinct {C : Type} (lib : Lib C) (so : ScanOutcomes)
    (rows : List Row) :
    ∀ (i : Nat) (st : State),
      rows.Pairwise (fun a b => certPath a.domain ≠ certPath b.domain) →
      attempts (scanLoop lib so i rows st).2 = overdueRecords lib so st.files i rows := by
  induction rows with
  | nil => intro i st _; rfl
  | cons row rows ih =>
    intro i st hp
    rw [List.pairwise_cons] at hp
    simp only [scanLoop, overdueRecords]
    rw [attempts_cons, scanRow_attempts, ih (i + 1) _ hp.2]
    congr 1
    apply overdueRecords_congr
    intro r hr
    exact scanRow_files_other lib so i st row _ (fun e => hp.1 r hr e.symm)
      (certPath_ne_keyPath _ _)

/-! ## Invariants of histories -/

theorem step_keeps_keyFileFree {C : Type} (lib : Lib C) (name : String) (st : State)
    (a : Action) (hinv : KeyFileFree name st)
    (ha : ∀ r o, a = .issue r o → ∀ d, keyWriteTarget r o = some d →
      keyPath d ≠ keyPath name) :
    KeyFileFree name (step lib st a).1 := by
  obtain ⟨hfile, hrows⟩ := hinv
  cases a with
  | issue r o =>
    have h := ha r o rfl
    refine ⟨?_, ?_⟩
    · simp only [step]
      rw [GenerateCertHandler_keyFile st r o name h]
      exact hfile
    · intro row hrow
      rcases GenerateCertHandler_new_row st r o row hrow with h1 | h1
      · exact hrows row h1
      · exact h _ h1
  | scan so =>
    refine ⟨?_, ?_⟩
    · simp only [step]
      rw [renewCertificatesIfNeeded_files_other lib st so (keyPath name)
        (fun row hr => ⟨fun e => certPath_ne_keyPath _ _ e.symm, fun e => hrows row hr e.symm⟩)]
      exact hfile
    · intro row hrow
      have hd : row.domain ∈ (step lib st (.scan so)).1.table.map Row.domain :=
        List.mem_map_of_mem _ hrow
      simp only [step] at hd
      rw [renewCertificatesIfNeeded_domains] at hd
      obtain ⟨row0, hr0, he⟩ := List.mem_map.mp hd
      rw [← he]
      exact hrows row0 hr0

theorem run_keeps_keyFileFree {C : Type} (lib : Lib C) (name : String) (acts : List Action) :
    ∀ st : State, KeyFileFree name st →
      (∀ r o, Action.issue r o ∈ acts → ∀ d, keyWriteTarget r o = some d →
        keyPath d ≠ keyPath name) →
      KeyFileFree name (run lib st acts).1 := by
  induction acts with
  | nil => intro st h _; exact h
  | cons a acts ih =>
    intro st h hacts
    simp only [run]
    apply ih
    · exact step_keeps_keyFileFree lib name st a h
        (fun r o e => hacts r o (by rw [e]; exact List.mem_cons_self _ _))
    · exact fun r o hm => hacts r o (List.mem_cons_of_mem _ hm)

theorem step_domains {C : Type} (lib : Lib C) (st : State) (a : Action) :
    (step lib st a).1.table.map Row.domain =
      st.table.map Row.domain ++ issuedDomains [(step lib st a).2] := by
  cases a with
  | issue r o =>
    simp only [step]
    rcases GenerateCertHandler_outcome st r o with ⟨ht, -, msg, code, he⟩ |
      ⟨email, domain, certs, -, -, -, -, -, -, htab, hresp⟩
    · rw [ht, he]
      simp [issuedDomains]
    · rw [htab, hresp]
      simp [issuedDomains, List.lookup]
  | scan so =>
    simp only [step]
    rw [renewCertificatesIfNeeded_domains]
    simp [issuedDomains]

theorem issuedDomains_cons (out : Output) (outs : List Output) :
    issuedDomains (out :: outs) = issuedDomains [out] ++ issuedDomains outs := by
  cases out with
  | response resp =>
    cases resp with
    | error msg code => simp [issuedDomains]
    | json fields => simp [issuedDomains]
  | scanned evs => simp [issuedDomains]

theorem run_domains {C : Type} (lib : Lib C) (acts : List Action) :
    ∀ st : State, (run lib st acts).1.table.map Row.domain =
      st.table.map Row.domain ++ issuedDomains (run lib st acts).2 := by
  induction acts with
  | nil => intro st; simp [run, issuedDomains]
  | cons a acts ih =>
    intro st
    simp only [run]
    rw [ih, step_domains, List.append_assoc, ← issuedDomains_cons]

/-! ## C1: the resolver never fails the handshake -/

/-- C1: for every requested server name, empty or not, and every content of the
certs directory, the `GetCertificate` callback returns a non-nil certificate
and a nil error. -/
theorem GetCertificate_total {C : Type} (lib : Lib C) (fs : Files) (serverName : String) :
    ∃ ref, GetCertificate lib fs serverName = (some ref, none) := by
  unfold GetCertificate
  by_cases h : serverName = ""
  · exact ⟨.defaultTLSCert, by simp [h]⟩
  · simp only [h, if_false]
    cases LoadX509KeyPair lib fs (certPath serverName) (keyPath serverName) with
    | error e => exact ⟨.defaultTLSCert, rfl⟩
    | ok c => exact ⟨.cert c, rfl⟩

/-! ## C2: a successful issue is what the resolver serves next -/

/-- C2: when `GenerateCertHandler` answers with the success response and the
material the provider returned is a matched pair (it loads as `c`), then the
domain `d` named in the response is the trimmed domain of the request, the
files of `d` hold exactly the obtained certificate and key, and the resolver
asked for `d` right afterwards returns the certificate loaded from that
material, not the default one. -/
theorem resolve_after_successful_issue {C : Type} (lib : Lib C) (st : State)
    (r : Request) (o : Outcomes) (fields : List (String × String)) (certs : Resource)
    (c : C)
    (hok : (GenerateCertHandler st r o).2 = .json fields)
    (hobt : o.obtain = .ok certs)
    (hpair : lib.X509KeyPair certs.Certificate certs.PrivateKey = .ok c) :
    ∃ req d, r.Body = .ok req ∧ d = TrimSpace req.Domain ∧
      fields.lookup "domain" = some d ∧
      (GenerateCertHandler st r o).1.files (certPath d) = some certs.Certificate ∧
      (GenerateCertHandler st r o).1.files (keyPath d) = some certs.PrivateKey ∧
      GetCertificate lib (GenerateCertHandler st r o).1.files d = (some (.cert c), none) := by
  rcases GenerateCertHandler_outcome st r o with ⟨-, -, msg, code, herr⟩ |
    ⟨email, domain, certs2, ht, hob, hmk, hw1, hw2, -, -, hresp⟩
  · rw [herr] at hok
    exact absurd hok (by simp)
  · have hc : certs2 = certs := by
      exact Except.ok.inj ((obtained_some o certs2 hob).symm.trans hobt)
    subst hc
    have hstore := GenerateCertHandler_store st r o email domain certs2 ht hob hmk
    obtain ⟨hf1, hf2⟩ := handlerStore_both_written st email domain certs2 o hw1 hw2
    rw [← hstore] at hf1 hf2
    obtain ⟨m, body⟩ := r
    unfold Request.target at ht
    by_cases hm : m = "POST"
    · cases body with
      | error e => simp [hm] at ht
      | ok req =>
        by_cases hb : TrimSpace req.Email = "" ∨ TrimSpace req.Domain = ""
        · simp [hm, hb] at ht
        · simp only [hm, hb, if_true, if_false, Option.some.injEq, Prod.mk.injEq] at ht
          obtain ⟨he, hd⟩ := ht
          have hdne : domain ≠ "" := by
            intro h0
            exact hb (Or.inr (hd.trans h0))
          refine ⟨req, domain, rfl, hd.symm, ?_, hf1, hf2, ?_⟩
          · rw [hresp] at hok
            simp only [Response.json.injEq] at hok
            rw [← hok]
            simp [List.lookup]
          · simp [GetCertificate, LoadX509KeyPair, hdne, hf1, hf2, hpair]
    · simp [hm] at ht

/-- C2 at a concrete request: `example.test` issued with every step succeeding
is what the resolver returns for `example.test`. -/
theorem resolve_after_successful_issue_witness :
    ∃ req d, (post "a@b.test" " example.test ").Body = .ok req ∧ d = TrimSpace req.Domain ∧
      [("message", "Certificado creado correctamente"), ("domain", "example.test"),
        ("email", "a@b.test"), ("cert_path", "certs/example.test.crt"),
        ("key_path", "certs/example.test.key")].lookup "domain" = some d ∧
      (GenerateCertHandler emptyState (post "a@b.test" " example.test ")
        (allOk ⟨[7, 500], [7]⟩ 100)).1.files (certPath d) = some [7, 500] ∧
      (GenerateCertHandler emptyState (post "a@b.test" " example.test ")
        (allOk ⟨[7, 500], [7]⟩ 100)).1.files (keyPath d) = some [7] ∧
      GetCertificate sampleLib (GenerateCertHandler emptyState
        (post "a@b.test" " example.test ") (allOk ⟨[7, 500], [7]⟩ 100)).1.files d =
        (some (.cert [7, 500]), none) :=
  resolve_after_successful_issue sampleLib emptyState (post "a@b.test" " example.test ")
    (allOk ⟨[7, 500], [7]⟩ 100) _ ⟨[7, 500], [7]⟩ [7, 500] (by decide) rfl rfl

/-! ## C3: names that were never issued -/

/-- C3 fails as stated: from the empty store, one request for `example.test`
obtains the material and writes both files, after which the database
statement fails.  The request is answered with an error and no row is
inserted, so no issuance for the domain has succeeded, yet the resolver
returns the certificate loaded from the files and not the default one. -/
theorem unrecorded_issue_is_served :
    (run sampleLib emptyState [.issue (post "a@b.test" "example.test") execFails]).2 =
      [.response (.error "Error guardando en la BD: pq: connection refused" 500)] ∧
    (run sampleLib emptyState [.issue (post "a@b.test" "example.test") execFails]).1.table =
      [] ∧
    GetCertificate sampleLib
      (run sampleLib emptyState [.issue (post "a@b.test" "example.test") execFails]).1.files
      "example.test" = (some (.cert [7, 500]), none) ∧
    GetCertificate sampleLib
      (run sampleLib emptyState [.issue (post "a@b.test" "example.test") execFails]).1.files
      "example.test" ≠ (some .defaultTLSCert, none) := by
  decide

/-- C3, amended: in every state reached from an empty store (no row, no file in
the certs directory) by issue requests and renewal scans, the resolver returns
the default certificate for the empty server name, and for every server name
without a path separator, provided that every request of the history that
created or overwrote a key file (it obtained the material, created the
directory, wrote the certificate file and opened the key file for writing,
whether or not it then reported success) was for another domain, itself
without a path separator. -/
theorem never_written_resolves_to_default {C : Type} (lib : Lib C) (st0 : State)
    (acts : List Action) (name : String)
    (hempty : EmptyStore st0)
    (hname : '/' ∉ name.data)
    (h : ∀ r o, Action.issue r o ∈ acts → ∀ d, keyWriteTarget r o = some d →
      '/' ∉ d.data ∧ d ≠ name) :
    GetCertificate lib (run lib st0 acts).1.files name = (some .defaultTLSCert, none) ∧
    GetCertificate lib (run lib st0 acts).1.files "" = (some .defaultTLSCert, none) := by
  have hkey0 : st0.files (keyPath name) = none := by
    rw [keyPath_verbatim name hname, String.append_assoc]
    apply hempty.2
    simp only [String.data_append, List.mem_append, not_or]
    exact ⟨hname, by decide⟩
  have hinv : KeyFileFree name (run lib st0 acts).1 :=
    run_keeps_keyFileFree lib name acts st0
      ⟨hkey0, by intro row hrow; rw [hempty.1] at hrow; exact absurd hrow (List.not_mem_nil _)⟩
      (fun r o hm d hd => keyPath_ne_of_ne d name (h r o hm d hd).1 hname (h r o hm d hd).2)
  refine ⟨?_, by simp [GetCertificate]⟩
  have hk := hinv.1
  by_cases hn : name = ""
  · simp [GetCertificate, hn]
  · cases hc : (run lib st0 acts).1.files (certPath name) <;>
      simp [GetCertificate, LoadX509KeyPair, hn, hc, hk]

/-- C3, amended, on a concrete history: a request for `other.test` obtains the
material and writes the certificate file, after which opening the key file
fails; a request for `example.test` succeeds; and a scan runs.  The resolver
returns the default certificate for `other.test`. -/
theorem never_written_resolves_to_default_witness :
    GetCertificate sampleLib (run sampleLib emptyState
      [.issue (post "x@y.test" "other.test") keyOpenFails,
        .issue (post "a@b.test" "example.test") (allOk ⟨[7, 500], [7]⟩ 100),
        .scan scanAllFail]).1.files "other.test" = (some .defaultTLSCert, none) ∧
    GetCertificate sampleLib (run sampleLib emptyState
      [.issue (post "x@y.test" "other.test") keyOpenFails,
        .issue (post "a@b.test" "example.test") (allOk ⟨[7, 500], [7]⟩ 100),
        .scan scanAllFail]).1.files "" = (some .defaultTLSCert, none) :=
  never_written_resolves_to_default sampleLib emptyState
    [.issue (post "x@y.test" "other.test") keyOpenFails,
      .issue (post "a@b.test" "example.test") (allOk ⟨[7, 500], [7]⟩ 100),
      .scan scanAllFail] "other.test"
    ⟨rfl, fun _ _ => rfl⟩
    (by decide)
    (by
      intro r o hm d hd
      simp only [List.mem_cons, Action.issue.injEq, List.mem_singleton, reduceCtorEq,
        List.not_mem_nil, or_false] at hm
      rcases hm with ⟨rfl, rfl⟩ | ⟨rfl, rfl⟩
      · have h0 : keyWriteTarget (post "x@y.test" "other.test") keyOpenFails = none := by
          decide
        rw [h0] at hd
        exact absurd hd (by simp)
      · have h0 : keyWriteTarget (post "a@b.test" "example.test")
            (allOk ⟨[7, 500], [7]⟩ 100) = some "example.test" := by decide
        rw [h0] at hd
        cases hd
        decide)

/-! ## C4: a failed provider step leaves the store alone -/

/-- C4: when ACME client creation, challenge-provider setup, account
registration or obtaining the certificate fails, `GenerateCertHandler` answers
with an error and `renewCertificate` returns an error, and both leave the
files, the rows and the id sequence exactly as they were, so the resolver
returns for every server name what it returned before. -/
theorem failed_provider_step_leaves_store {C : Type} (lib : Lib C) (st : State)
    (r : Request) (email domain : String) (o : Outcomes)
    (h : o.newClient ≠ none ∨ o.setHTTP01Provider ≠ none ∨ o.register ≠ none ∨
      ∃ err, o.obtain = .error err) :
    ((GenerateCertHandler st r o).1 = st ∧
      ∃ msg code, (GenerateCertHandler st r o).2 = .error msg code) ∧
    ((renewCertificate st email domain o).1 = st ∧
      ∃ err, (renewCertificate st email domain o).2 = some err) ∧
    ∀ name, GetCertificate lib (GenerateCertHandler st r o).1.files name =
        GetCertificate lib st.files name ∧
      GetCertificate lib (renewCertificate st email domain o).1.files name =
        GetCertificate lib st.files name := by
  have hob := obtained_none_of_failed o h
  have h1 := GenerateCertHandler_not_obtained st r o hob
  have h2 := renewCertificate_not_obtained st email domain o hob
  refine ⟨h1, h2, fun name => ?_⟩
  rw [h1.1, h2.1]
  exact ⟨rfl, rfl⟩

/-- C4 at a concrete attempt: registration fails while renewing and re-issuing
`example.test`, which was issued before. -/
theorem failed_provider_step_leaves_store_witness :
    ((GenerateCertHandler issuedState (post "a@b.test" "example.test") registerFails).1 =
        issuedState ∧
      ∃ msg code, (GenerateCertHandler issuedState (post "a@b.test" "example.test")
        registerFails).2 = .error msg code) ∧
    ((renewCertificate issuedState "a@b.test" "example.test" registerFails).1 = issuedState ∧
      ∃ err, (renewCertificate issuedState "a@b.test" "example.test" registerFails).2 =
        some err) ∧
    ∀ name, GetCertificate sampleLib (GenerateCertHandler issuedState
          (post "a@b.test" "example.test") registerFails).1.files name =
        GetCertificate sampleLib issuedState.files name ∧
      GetCertificate sampleLib (renewCertificate issuedState "a@b.test" "example.test"
          registerFails).1.files name =
        GetCertificate sampleLib issuedState.files name :=
  failed_provider_step_leaves_store sampleLib issuedState (post "a@b.test" "example.test")
    "a@b.test" "example.test" registerFails (Or.inr (Or.inr (Or.inl (by decide))))

/-! ## C5: replacing the material of a domain -/

/-- C5 fails as stated: renewing `example.test` (served with serial 7) with
new material (serial 8), the certificate file is written and opening the key
file then fails.  `renewCertificate` returns the error, the certificate file
holds the new certificate and the key file still the old key, which is
neither the old pair nor the new pair, and the resolver, which served the old
certificate before, now falls back to the default certificate. -/
theorem renewal_key_write_failure_mixes_material :
    (renewCertificate issuedState "a@b.test" "example.test" keyWriteFails).2 =
      some "open certs/example.test.key: permission denied" ∧
    issuedState.files (certPath "example.test") = some [7, 500] ∧
    issuedState.files (keyPath "example.test") = some [7] ∧
    (renewCertificate issuedState "a@b.test" "example.test" keyWriteFails).1.files
      (certPath "example.test") = some [8, 900] ∧
    (renewCertificate issuedState "a@b.test" "example.test" keyWriteFails).1.files
      (keyPath "example.test") = some [7] ∧
    GetCertificate sampleLib issuedState.files "example.test" = (some (.cert [7, 500]), none) ∧
    GetCertificate sampleLib
      (renewCertificate issuedState "a@b.test" "example.test" keyWriteFails).1.files
      "example.test" = (some .defaultTLSCert, none) := by
  decide

/-- C5, amended: in an attempt for a domain in which the certificate-file write
either succeeds or fails at opening the file, and the key-file write succeeds,
`renewCertificate` and `GenerateCertHandler` leave every file as it was, or
leave in the two files of the domain exactly the certificate and the key just
obtained, whatever the database statement does afterwards. -/
theorem replace_without_partial_write (st : State) (r : Request) (email domain : String)
    (o : Outcomes)
    (hw : (∃ err, o.writeCert = .openFailed err) ∨ (o.writeCert = .ok ∧ o.writeKey = .ok)) :
    ((renewCertificate st email domain o).1.files = st.files ∨
      ∃ certs, o.obtain = .ok certs ∧
        (renewCertificate st email domain o).1.files (certPath domain) =
          some certs.Certificate ∧
        (renewCertificate st email domain o).1.files (keyPath domain) =
          some certs.PrivateKey) ∧
    ((GenerateCertHandler st r o).1.files = st.files ∨
      ∃ req certs, r.Body = .ok req ∧ o.obtain = .ok certs ∧
        (GenerateCertHandler st r o).1.files (certPath (TrimSpace req.Domain)) =
          some certs.Certificate ∧
        (GenerateCertHandler st r o).1.files (keyPath (TrimSpace req.Domain)) =
          some certs.PrivateKey) := by
  constructor
  · cases hob : o.obtained with
    | none => exact Or.inl (by rw [(renewCertificate_not_obtained st email domain o hob).1])
    | some certs =>
      rw [renewCertificate_store st email domain o certs hob]
      rcases hw with ⟨err, he⟩ | ⟨h1, h2⟩
      · exact Or.inl (by rw [renewStore_openFailed st domain certs o err he])
      · exact Or.inr ⟨certs, obtained_some o certs hob,
          renewStore_both_written st domain certs o h1 h2⟩
  · cases ht : r.target with
    | none => exact Or.inl (by rw [(GenerateCertHandler_no_target st r o ht).1])
    | some t =>
      obtain ⟨em, dom⟩ := t
      cases hob : o.obtained with
      | none => exact Or.inl (by rw [(GenerateCertHandler_not_obtained st r o hob).1])
      | some certs =>
        cases hmk : o.mkdirAll with
        | some err => exact Or.inl (by rw [(GenerateCertHandler_mkdir_failed st r o err hmk).1])
        | none =>
          rw [GenerateCertHandler_store st r o em dom certs ht hob hmk]
          rcases hw with ⟨err, he⟩ | ⟨h1, h2⟩
          · exact Or.inl (by rw [handlerStore_openFailed st em dom certs o err he])
          · obtain ⟨req, hreq, -, hd⟩ := target_some r em dom ht
            subst hd
            exact Or.inr ⟨req, certs, hreq, obtained_some o certs hob,
              handlerStore_both_written st em _ certs o h1 h2⟩

/-- C5, amended, at a concrete attempt: `example.test`, served with serial 7,
is renewed or re-issued with material of serial 8; both writes succeed and the
database statement fails. -/
theorem replace_without_partial_write_witness :
    ((renewCertificate issuedState "a@b.test" "example.test" renewExecFails).1.files =
        issuedState.files ∨
      ∃ certs, renewExecFails.obtain = .ok certs ∧
        (renewCertificate issuedState "a@b.test" "example.test" renewExecFails).1.files
          (certPath "example.test") = some certs.Certificate ∧
        (renewCertificate issuedState "a@b.test" "example.test" renewExecFails).1.files
          (keyPath "example.test") = some certs.PrivateKey) ∧
    ((GenerateCertHandler issuedState (post "a@b.test" "example.test") renewExecFails).1.files =
        issuedState.files ∨
      ∃ req certs, (post "a@b.test" "example.test").Body = .ok req ∧
        renewExecFails.obtain = .ok certs ∧
        (GenerateCertHandler issuedState (post "a@b.test" "example.test")
          renewExecFails).1.files (certPath (TrimSpace req.Domain)) = some certs.Certificate ∧
        (GenerateCertHandler issuedState (post "a@b.test" "example.test")
          renewExecFails).1.files (keyPath (TrimSpace req.Domain)) = some certs.PrivateKey) :=
  replace_without_partial_write issuedState (post "a@b.test" "example.test") "a@b.test"
    "example.test" renewExecFails (Or.inr ⟨rfl, rfl⟩)

/-! ## C6: rows per domain -/

/-- C6 fails as stated: two successful requests for `example.test` leave two
rows for that domain in the table. -/
theorem reissue_adds_second_row :
    (run sampleLib emptyState
      [.issue (post "a@b.test" "example.test") (allOk ⟨[7, 500], [7]⟩ 100),
        .issue (post "a@b.test" "example.test") (allOk ⟨[8, 900], [8]⟩ 200)]).1.table =
      [⟨1, "a@b.test", "example.test", "certs/example.test.crt", "certs/example.test.key", 100⟩,
        ⟨2, "a@b.test", "example.test", "certs/example.test.crt", "certs/example.test.key",
          200⟩] := by
  decide

/-- C6, amended: in every state reached from the empty table by issue requests
and renewal scans, the table holds for every domain exactly as many rows as
there were success responses naming that domain; a renewal adds no row and
removes none, and every successful request adds one, also for a domain that
is already present. -/
theorem rows_per_domain_eq_successful_issues {C : Type} (lib : Lib C) (acts : List Action)
    (d : String) :
    ((run lib emptyState acts).1.table.filter (fun row => decide (row.domain = d))).length =
      (issuedDomains (run lib emptyState acts).2).count d := by
  have h := run_domains lib acts emptyState
  have h0 : emptyState.table.map Row.domain = [] := rfl
  rw [h0, List.nil_append] at h
  rw [← h, List.count, List.countP_map, List.countP_eq_length_filter]
  congr 1

/-! ## C7: which records a scan renews -/

/-- C7: in one run of `renewCertificatesIfNeeded`, a delivered record whose
`rows.Scan` succeeds and whose certificate file, as it is when the record is
reached, reads, decodes and parses with expiry `notAfter`, gets a renewal
attempt with its own email and domain when `notAfter - now` is less than 15
days, and is left alone otherwise. -/
theorem scan_renews_iff_within_threshold {C : Type} (lib : Lib C) (st : State)
    (so : ScanOutcomes) (pre : List Row) (row : Row) (post : List Row)
    (data block : Bytes) (notAfter : Int)
    (hrows : deliveredRows st so = pre ++ row :: post)
    (hscan : so.rowScan pre.length = none)
    (hread : (scanLoop lib so 0 pre st).1.files (certPath row.domain) = some data)
    (hpem : lib.pemDecode data = some block)
    (hparse : lib.parseNotAfter block = .ok notAfter) :
    (renewCertificatesIfNeeded lib st so).2[pre.length]? =
      some (if notAfter - so.now pre.length < 15 * 24 * Hour then
        .renewal row.email row.domain
          (renewCertificate (scanLoop lib so 0 pre st).1 row.email row.domain
            (so.renew pre.length)).2
      else .notDue) := by
  rw [renewCertificatesIfNeeded_eq, hrows, scanLoop_event_at, Nat.zero_add,
    scanRow_parsed lib so pre.length _ row data block notAfter hscan hread hpem hparse]

/-- C7 on three records expiring 5, 20 and 400 days after the instant of the
scan: only the first gets a renewal attempt. -/
theorem scan_renews_iff_within_threshold_witness :
    (renewCertificatesIfNeeded sampleLib threeRecords scanAtZero).2[0]? =
      some (.renewal "a@b.test" "one.test" none) ∧
    (renewCertificatesIfNeeded sampleLib threeRecords scanAtZero).2[1]? = some .notDue ∧
    (renewCertificatesIfNeeded sampleLib threeRecords scanAtZero).2[2]? = some .notDue ∧
    attempts (renewCertificatesIfNeeded sampleLib threeRecords scanAtZero).2 =
      [("a@b.test", "one.test")] :=
  ⟨(scan_renews_iff_within_threshold sampleLib threeRecords scanAtZero []
      ⟨1, "a@b.test", "one.test", "certs/one.test.crt", "certs/one.test.key", 0⟩
      [⟨2, "c@d.test", "two.test", "certs/two.test.crt", "certs/two.test.key", 0⟩,
        ⟨3, "e@f.test", "three.test", "certs/three.test.crt", "certs/three.test.key", 0⟩]
      [1, 432000000000000] [1, 432000000000000] 432000000000000
      (by decide) rfl (by decide) rfl rfl).trans (by decide),
    (scan_renews_iff_within_threshold sampleLib threeRecords scanAtZero
      [⟨1, "a@b.test", "one.test", "certs/one.test.crt", "certs/one.test.key", 0⟩]
      ⟨2, "c@d.test", "two.test", "certs/two.test.crt", "certs/two.test.key", 0⟩
      [⟨3, "e@f.test", "three.test", "certs/three.test.crt", "certs/three.test.key", 0⟩]
      [2, 1728000000000000] [2, 1728000000000000] 1728000000000000
      (by decide) rfl (by decide) rfl rfl).trans (by decide),
    (scan_renews_iff_within_threshold sampleLib threeRecords scanAtZero
      [⟨1, "a@b.test", "one.test", "certs/one.test.crt", "certs/one.test.key", 0⟩,
        ⟨2, "c@d.test", "two.test", "certs/two.test.crt", "certs/two.test.key", 0⟩]
      ⟨3, "e@f.test", "three.test", "certs/three.test.crt", "certs/three.test.key", 0⟩
      []
      [3, 34560000000000000] [3, 34560000000000000] 34560000000000000
      (by decide) rfl (by decide) rfl rfl).trans (by decide),
    by decide⟩

/-! ## C8: the scan goes through every delivered record -/

/-- C8: whatever the environment answers to each renewal attempt, one run of
`renewCertificatesIfNeeded` produces one event per delivered record; the
record at each position gets a renewal attempt, with its own email and
domain, exactly when its `rows.Scan` succeeds and it is overdue on the files
left by the turns before it; and when the delivered records have pairwise
distinct certificate files, the attempts of the run are exactly the records
overdue on the files at the start of the run. -/
theorem scan_examines_every_record {C : Type} (lib : Lib C) (st : State)
    (so : ScanOutcomes) :
    (renewCertificatesIfNeeded lib st so).2.length = (deliveredRows st so).length ∧
    (∀ pre row post, deliveredRows st so = pre ++ row :: post →
      ∃ ev, (renewCertificatesIfNeeded lib st so).2[pre.length]? = some ev ∧
        attempts [ev] =
          if so.rowScan pre.length = none ∧
              overdue lib (scanLoop lib so 0 pre st).1.files (so.now pre.length) row = true
            then [(row.email, row.domain)] else []) ∧
    ((deliveredRows st so).Pairwise (fun a b => certPath a.domain ≠ certPath b.domain) →
      attempts (renewCertificatesIfNeeded lib st so).2 =
        overdueRecords lib so st.files 0 (deliveredRows st so)) := by
  rw [renewCertificatesIfNeeded_eq]
  refine ⟨scanLoop_length lib so _ 0 st, ?_, scanLoop_attempts_distinct lib so _ 0 st⟩
  intro pre row post hrows
  rw [hrows, scanLoop_event_at, Nat.zero_add]
  exact ⟨_, rfl, scanRow_attempts lib so pre.length _ row⟩

/-- C8 on three records of which two are overdue, in a scan whose renewal
attempts all fail: both overdue records are attempted, and all three records
are examined. -/
theorem scan_examines_every_record_witness :
    (renewCertificatesIfNeeded sampleLib threeRecords scanAllFail).2 =
      [.renewal "a@b.test" "one.test" (some "acme: error: 429 :: too many registrations"),
        .renewal "c@d.test" "two.test" (some "acme: error: 429 :: too many registrations"),
        .notDue] ∧
    (renewCertificatesIfNeeded sampleLib threeRecords scanAllFail).2.length = 3 ∧
    attempts (renewCertificatesIfNeeded sampleLib threeRecords scanAllFail).2 =
      [("a@b.test", "one.test"), ("c@d.test", "two.test")] :=
  ⟨by decide,
    (scan_examines_every_record sampleLib threeRecords scanAllFail).1.trans (by decide),
    ((scan_examines_every_record sampleLib threeRecords scanAllFail).2.2 (by decide)).trans
      (by decide)⟩

/-! ## C10: the resolver takes the server name as it comes -/

/-- C10 fails as stated: with `example.test` issued, the resolver asked for
`Example.TEST:443` returns the default certificate, while asked for the
normalized name `example.test` it returns the issued certificate; and a
request for the domain `Example.TEST` is recorded and stored under that very
name, so that the resolver asked for `example.test` finds nothing. -/
theorem resolver_does_not_normalize :
    specNormalize "Example.TEST:443" = "example.test" ∧
    GetCertificate sampleLib issuedState.files "Example.TEST:443" =
      (some .defaultTLSCert, none) ∧
    GetCertificate sampleLib issuedState.files (specNormalize "Example.TEST:443") =
      (some (.cert [7, 500]), none) ∧
    (GenerateCertHandler emptyState (post "a@b.test" "Example.TEST")
      (allOk ⟨[7, 500], [7]⟩ 100)).1.table =
      [⟨1, "a@b.test", "Example.TEST", "certs/Example.TEST.crt", "certs/Example.TEST.key",
        100⟩] ∧
    GetCertificate sampleLib (GenerateCertHandler emptyState (post "a@b.test" "Example.TEST")
      (allOk ⟨[7, 500], [7]⟩ 100)).1.files "example.test" = (some .defaultTLSCert, none) ∧
    GetCertificate sampleLib (GenerateCertHandler emptyState (post "a@b.test" "Example.TEST")
      (allOk ⟨[7, 500], [7]⟩ 100)).1.files "Example.TEST" = (some (.cert [7, 500]), none) := by
  decide

/-- C10, amended: neither the resolver nor issuance normalizes a name.  For
every non-empty server name `s` without a path separator the resolver loads
the files `certs/s.crt` and `certs/s.key`, with `s` unchanged (no port
stripped, no letter lower-cased), and returns the pair loaded from them, or
the default certificate when loading fails; and every successful request is
recorded and stored under its domain with only the surrounding white space
removed. -/
theorem resolver_uses_name_verbatim {C : Type} (lib : Lib C) (fs : Files) (s : String)
    (hs : s ≠ "") (hsep : '/' ∉ s.data) :
    certPath s = "certs/" ++ s ++ ".crt" ∧ keyPath s = "certs/" ++ s ++ ".key" ∧
    (GetCertificate lib fs s =
      match LoadX509KeyPair lib fs ("certs/" ++ s ++ ".crt") ("certs/" ++ s ++ ".key") with
      | .error _ => (some .defaultTLSCert, none)
      | .ok cert => (some (.cert cert), none)) ∧
    ∀ (st : State) (r : Request) (o : Outcomes) (fields : List (String × String)),
      (GenerateCertHandler st r o).2 = .json fields →
      ∃ req, r.Body = .ok req ∧
        (GenerateCertHandler st r o).1.table =
          st.table ++ [⟨st.nextId, TrimSpace req.Email, TrimSpace req.Domain,
            certPath (TrimSpace req.Domain), keyPath (TrimSpace req.Domain), o.now⟩] := by
  refine ⟨certPath_verbatim s hsep, keyPath_verbatim s hsep, ?_, ?_⟩
  · unfold GetCertificate
    simp only [hs, if_false]
    rw [certPath_verbatim s hsep, keyPath_verbatim s hsep]
  · intro st r o fields hok
    rcases GenerateCertHandler_outcome st r o with ⟨-, -, msg, code, herr⟩ |
      ⟨email, domain, certs, ht, -, -, -, -, -, htab, -⟩
    · rw [herr] at hok
      exact absurd hok (by simp)
    · obtain ⟨req, hreq, he, hd⟩ := target_some r email domain ht
      subst he hd
      exact ⟨req, hreq, htab⟩

/-- C10, amended, at the server name `Example.TEST:443`. -/
theorem resolver_uses_name_verbatim_witness :
    certPath "Example.TEST:443" = "certs/" ++ "Example.TEST:443" ++ ".crt" ∧
    keyPath "Example.TEST:443" = "certs/" ++ "Example.TEST:443" ++ ".key" ∧
    (GetCertificate sampleLib issuedState.files "Example.TEST:443" =
      match LoadX509KeyPair sampleLib issuedState.files
        ("certs/" ++ "Example.TEST:443" ++ ".crt") ("certs/" ++ "Example.TEST:443" ++ ".key") with
      | .error _ => (some .defaultTLSCert, none)
      | .ok cert => (some (.cert cert), none)) ∧
    ∀ (st : State) (r : Request) (o : Outcomes) (fields : List (String × String)),
      (GenerateCertHandler st r o).2 = .json fields →
      ∃ req, r.Body = .ok req ∧
        (GenerateCertHandler st r o).1.table =
          st.table ++ [⟨st.nextId, TrimSpace req.Email, TrimSpace req.Domain,
            certPath (TrimSpace req.Domain), keyPath (TrimSpace req.Domain), o.now⟩] :=
  resolver_uses_name_verbatim sampleLib issuedState.files "Example.TEST:443"
    (by decide) (by decide)

end WhiteLabel
